import Mathlib

/-!
Verification of the copy-control demonstration program
(`src/cpp/class/copy_control/function.cpp`).

The C++ program defines a class `Apple` holding a `shared_ptr<string>`
payload, with a logging default constructor, copy constructor and
copy-assignment operator, plus three free functions taking an `Apple`
by value (`func`), by reference (`r_func`) and by pointer (`p_func`).

Embedding: heap allocations of strings are modelled as a growing list;
an allocation id is an index into that list.  An `Apple` holds the id
of the string its `shared_ptr<string> name` points to.  Each operation
returns the new heap, the produced instance, and the lines it writes
to standard output.  Dereferencing an invalid id yields `none`
(undefined behaviour in C++); the heap is never shrunk, which is sound
for all content/aliasing properties considered here since the program
never observes deallocation.
-/

namespace CopyControl

/-- The heap of string allocations.  `store.get? i` is the content of
allocation `i`; allocation ids are indices into `store`. -/
structure Heap where
  store : List String
deriving DecidableEq

/-- Allocate a new string (`new string(...)` / `make_shared<string>(...)`):
append it to the store and return the fresh allocation id. -/
def Heap.alloc (h : Heap) (s : String) : Heap × Nat :=
  (⟨h.store ++ [s]⟩, h.store.length)

/-- Dereference an allocation id; `none` models an invalid pointer. -/
def Heap.get (h : Heap) (i : Nat) : Option String :=
  h.store.get? i

/-- `class Apple`: holds `shared_ptr<string> name`, modelled as the id of
the allocation the pointer targets. -/
structure Apple where
  name : Nat
deriving DecidableEq

/-- An instance is valid in a heap when its payload pointer dereferences. -/
def Apple.valid (h : Heap) (a : Apple) : Prop :=
  (Heap.get h a.name).isSome = true

instance (h : Heap) (a : Apple) : Decidable (Apple.valid h a) := by
  unfold Apple.valid; infer_instance

/-- `Apple() : name(new string) { cout << "default constructor" << endl; }` -/
def Apple.mkDefault (h : Heap) : Heap × Apple × List String :=
  let p := Heap.alloc h ""
  (p.1, ⟨p.2⟩, ["default constructor"])

/-- `Apple(const Apple &copy_instance) : name(new string(*copy_instance.name))
{ cout << "copy constructor" << endl; }` — dereferences the source payload
and allocates a fresh duplicate. -/
def Apple.copyCtor (h : Heap) (src : Apple) : Option (Heap × Apple × List String) :=
  match Heap.get h src.name with
  | none => none
  | some s =>
    let p := Heap.alloc h s
    some (p.1, ⟨p.2⟩, ["copy constructor"])

/-- `Apple &operator=(const Apple &op) { name = make_shared<string>(*op.name);
cout << "operator=" << endl; return *this; }` — unconditionally allocates a
duplicate of `op`'s payload (no self-assignment guard) and replaces `self`'s
owned reference; the returned `Apple` is the updated `*this`. -/
def Apple.assign (h : Heap) (self other : Apple) : Option (Heap × Apple × List String) :=
  match Heap.get h other.name with
  | none => none
  | some s =>
    let p := Heap.alloc h s
    some (p.1, ⟨p.2⟩, ["operator="])

/-- `void func(Apple app) { cout << "func" << endl; }` — the by-value
parameter is copy-constructed from the argument before the body runs. -/
def func (h : Heap) (app : Apple) : Option (Heap × List String) :=
  match Apple.copyCtor h app with
  | none => none
  | some (h', _, log) => some (h', log ++ ["func"])

/-- `void r_func(Apple &app) { cout << "r_func" << endl; }` — the reference
parameter binds directly to the argument: no copy, no heap change. -/
def r_func (h : Heap) (app : Apple) : Heap × Apple × List String :=
  (h, app, ["r_func"])

/-- `void p_func(Apple *app) { cout << "p_func" << endl; }` — the pointer
parameter aliases the argument: no copy, no heap change. -/
def p_func (h : Heap) (app : Apple) : Heap × Apple × List String :=
  (h, app, ["p_func"])

/-- `int main(void)`, parameterised by the (never consumed) standard-input
stream.  `Apple _1;` is default construction; `Apple _2(_1);` is direct copy
construction; `Apple _3 = _2;` is copy-initialisation, which for this class
invokes the copy constructor (not `operator=`); then the three free-function
calls on `_1`.  Returns the lines written to standard output and the exit
code. -/
def mainRun (stdin : List String) : Option (List String × Nat) :=
  let d := Apple.mkDefault ⟨[]⟩
  match Apple.copyCtor d.1 d.2.1 with
  | none => none
  | some (h2, a2, l2) =>
    match Apple.copyCtor h2 a2 with
    | none => none
    | some (h3, _, l3) =>
      match func h3 d.2.1 with
      | none => none
      | some (h4, l5) =>
        let r := r_func h4 d.2.1
        let p := p_func r.1 d.2.1
        let _ := stdin
        some (d.2.2 ++ l2 ++ l3 ++ ["test func parameter"] ++ l5 ++ r.2.2 ++ p.2.2, 0)

/-- Calling `r_func` repeatedly: `iterate_r h a n` performs `n` successive
calls of `r_func` starting from heap `h` and instance `a`, collecting the
output lines. -/
def iterate_r (h : Heap) (a : Apple) : Nat → Heap × Apple × List String
  | 0 => (h, a, [])
  | n + 1 =>
    let s := r_func h a
    let t := iterate_r s.1 s.2.1 n
    (t.1, t.2.1, s.2.2 ++ t.2.2)

/-- Calling `p_func` repeatedly, analogous to `iterate_r`. -/
def iterate_p (h : Heap) (a : Apple) : Nat → Heap × Apple × List String
  | 0 => (h, a, [])
  | n + 1 =>
    let s := p_func h a
    let t := iterate_p s.1 s.2.1 n
    (t.1, t.2.1, s.2.2 ++ t.2.2)

end CopyControl

namespace CopyControl

theorem Heap.lt_of_get (h : Heap) (i : Nat) (s : String)
    (hg : Heap.get h i = some s) : i < h.store.length := by
  unfold Heap.get at hg
  by_contra hlt
  rw [List.get?_eq_none.mpr (Nat.le_of_not_lt hlt)] at hg
  exact Option.noConfusion hg

theorem Heap.get_alloc_self (h : Heap) (s : String) :
    Heap.get (Heap.alloc h s).1 (Heap.alloc h s).2 = some s := by
  show (h.store ++ [s]).get? h.store.length = some s
  exact List.get?_concat_length h.store s

theorem Heap.get_alloc_of_lt (h : Heap) (s : String) (i : Nat)
    (hi : i < h.store.length) : Heap.get (Heap.alloc h s).1 i = Heap.get h i := by
  show (h.store ++ [s]).get? i = h.store.get? i
  exact List.get?_append hi

/-- C2: self-assignment `a = a` is not specially guarded: it still allocates
a fresh duplicate of the payload (the heap grows by one allocation and the
updated instance points at the fresh id, distinct from the old one), logs
exactly `operator=`, and is functionally safe: afterwards the payload content
of `a` equals its content before the assignment. -/
theorem c2_self_assignment (h : Heap) (a : Apple) (s : String)
    (hv : Heap.get h a.name = some s) :
    ∃ h' a', Apple.assign h a a = some (h', a', ["operator="]) ∧
      Heap.get h' a'.name = some s ∧
      a'.name ≠ a.name ∧
      h'.store.length = h.store.length + 1 := by
  refine ⟨(Heap.alloc h s).1, ⟨(Heap.alloc h s).2⟩, ?_, ?_, ?_, ?_⟩
  · simp [Apple.assign, hv]
  · exact Heap.get_alloc_self h s
  · have := Heap.lt_of_get h a.name s hv
    simp only [Heap.alloc]
    omega
  · simp [Heap.alloc]

theorem c2_self_assignment_witness :
    ∃ h' a', Apple.assign ⟨["ok"]⟩ ⟨0⟩ ⟨0⟩ = some (h', a', ["operator="]) ∧
      Heap.get h' a'.name = some "ok" ∧
      a'.name ≠ (Apple.mk 0).name ∧
      h'.store.length = (Heap.mk ["ok"]).store.length + 1 :=
  c2_self_assignment ⟨["ok"]⟩ ⟨0⟩ "ok" rfl

/-- C3: copy-assignment `B = A` logs exactly the one line `operator=` and
afterwards `B`'s payload content equals `A`'s at the time of assignment; the
operation returns the updated `B`, so the chained assignment `C = B = A`
performs two assignments, logs `operator=` twice, and leaves `C` with `A`'s
payload content. -/
theorem c3_assignment_chaining (h : Heap) (a b c : Apple) (s : String)
    (hv : Heap.get h a.name = some s) :
    ∃ h1 b', Apple.assign h b a = some (h1, b', ["operator="]) ∧
      Heap.get h1 b'.name = some s ∧
      ∃ h2 c', Apple.assign h1 c b' = some (h2, c', ["operator="]) ∧
        Heap.get h2 c'.name = some s := by
  refine ⟨(Heap.alloc h s).1, ⟨(Heap.alloc h s).2⟩, ?_, ?_, ?_⟩
  · simp [Apple.assign, hv]
  · exact Heap.get_alloc_self h s
  · have hb : Heap.get (Heap.alloc h s).1 (Heap.alloc h s).2 = some s :=
      Heap.get_alloc_self h s
    refine ⟨(Heap.alloc (Heap.alloc h s).1 s).1,
      ⟨(Heap.alloc (Heap.alloc h s).1 s).2⟩, ?_, ?_⟩
    · simp [Apple.assign, hb]
    · exact Heap.get_alloc_self (Heap.alloc h s).1 s

theorem c3_assignment_chaining_witness :
    ∃ h1 b', Apple.assign ⟨["pie"]⟩ ⟨0⟩ ⟨0⟩ = some (h1, b', ["operator="]) ∧
      Heap.get h1 b'.name = some "pie" ∧
      ∃ h2 c', Apple.assign h1 ⟨0⟩ b' = some (h2, c', ["operator="]) ∧
        Heap.get h2 c'.name = some "pie" :=
  c3_assignment_chaining ⟨["pie"]⟩ ⟨0⟩ ⟨0⟩ ⟨0⟩ "pie" rfl

/-- C4: copy-constructing `B` from `A` logs exactly the one line
`copy constructor`, `B`'s payload content equals `A`'s at the time of the
copy, and `B`'s payload is a freshly allocated string whose allocation is
distinct from `A`'s: the two instances share no payload allocation
afterwards, and `A`'s payload is untouched. -/
theorem c4_copy_construction (h : Heap) (a : Apple) (s : String)
    (hv : Heap.get h a.name = some s) :
    ∃ h' b, Apple.copyCtor h a = some (h', b, ["copy constructor"]) ∧
      Heap.get h' b.name = some s ∧
      b.name ≠ a.name ∧
      Heap.get h' a.name = some s := by
  have ha := Heap.lt_of_get h a.name s hv
  refine ⟨(Heap.alloc h s).1, ⟨(Heap.alloc h s).2⟩, ?_, ?_, ?_, ?_⟩
  · simp [Apple.copyCtor, hv]
  · exact Heap.get_alloc_self h s
  · simp only [Heap.alloc]
    omega
  · rw [Heap.get_alloc_of_lt h s a.name ha]
    exact hv

theorem c4_copy_construction_witness :
    ∃ h' b, Apple.copyCtor ⟨["red"]⟩ ⟨0⟩ = some (h', b, ["copy constructor"]) ∧
      Heap.get h' b.name = some "red" ∧
      b.name ≠ (Apple.mk 0).name ∧
      Heap.get h' (Apple.mk 0).name = some "red" :=
  c4_copy_construction ⟨["red"]⟩ ⟨0⟩ "red" rfl

/-- C5: calling `func` with an already-constructed instance (by value)
triggers exactly one copy construction before the body logs `func`, so the
call logs `copy constructor` then `func`; calling `r_func` (by reference)
performs no copy, changes nothing, and logs only `r_func`; calling `p_func`
(by pointer) performs no copy, changes nothing, and logs only `p_func`. -/
theorem c5_parameter_passing (h : Heap) (a : Apple) (s : String)
    (hv : Heap.get h a.name = some s) :
    (∃ h', func h a = some (h', ["copy constructor", "func"])) ∧
    r_func h a = (h, a, ["r_func"]) ∧
    p_func h a = (h, a, ["p_func"]) := by
  refine ⟨⟨(Heap.alloc h s).1, ?_⟩, rfl, rfl⟩
  simp [func, Apple.copyCtor, hv]

theorem c5_parameter_passing_witness :
    (∃ h', func ⟨["z"]⟩ ⟨0⟩ = some (h', ["copy constructor", "func"])) ∧
    r_func ⟨["z"]⟩ ⟨0⟩ = (⟨["z"]⟩, ⟨0⟩, ["r_func"]) ∧
    p_func ⟨["z"]⟩ ⟨0⟩ = (⟨["z"]⟩, ⟨0⟩, ["p_func"]) :=
  c5_parameter_passing ⟨["z"]⟩ ⟨0⟩ "z" rfl

/-- C6: every default construction logs exactly the one line
`default constructor` and produces an instance whose payload is a freshly
allocated empty string — fresh in that the instance's allocation id did not
exist in the heap before the construction. -/
theorem c6_default_construction (h : Heap) :
    ∃ h' a, Apple.mkDefault h = (h', a, ["default constructor"]) ∧
      Heap.get h' a.name = some "" ∧
      Heap.get h a.name = none := by
  refine ⟨(Heap.alloc h "").1, ⟨(Heap.alloc h "").2⟩, rfl, Heap.get_alloc_self h "", ?_⟩
  show h.store.get? h.store.length = none
  exact List.get?_eq_none.mpr (Nat.le_refl _)

/-- C7: after any of the three operations completes — default construction,
copy construction from a valid source, copy assignment from a valid source —
the produced instance holds a valid owning reference to a string (the payload
is never null or absent), and the operations also preserve the validity of
the pre-existing instances. -/
theorem c7_payload_never_null (h : Heap) (src self other : Apple)
    (hsrc : Apple.valid h src) (hother : Apple.valid h other) :
    Apple.valid (Apple.mkDefault h).1 (Apple.mkDefault h).2.1 ∧
    (∃ h' b, Apple.copyCtor h src = some (h', b, ["copy constructor"]) ∧
      Apple.valid h' b ∧ Apple.valid h' src ∧ Apple.valid h' other) ∧
    (∃ h' b, Apple.assign h self other = some (h', b, ["operator="]) ∧
      Apple.valid h' b ∧ Apple.valid h' other) := by
  obtain ⟨s, hs⟩ := Option.isSome_iff_exists.mp hsrc
  obtain ⟨t, ht⟩ := Option.isSome_iff_exists.mp hother
  have hls := Heap.lt_of_get h src.name s hs
  have hlt := Heap.lt_of_get h other.name t ht
  refine ⟨?_, ?_, ?_⟩
  · show (Heap.get (Heap.alloc h "").1 (Heap.alloc h "").2).isSome = true
    rw [Heap.get_alloc_self h ""]
    rfl
  · refine ⟨(Heap.alloc h s).1, ⟨(Heap.alloc h s).2⟩, ?_, ?_, ?_, ?_⟩
    · simp [Apple.copyCtor, hs]
    · show (Heap.get (Heap.alloc h s).1 (Heap.alloc h s).2).isSome = true
      rw [Heap.get_alloc_self h s]
      rfl
    · show (Heap.get (Heap.alloc h s).1 src.name).isSome = true
      rw [Heap.get_alloc_of_lt h s src.name hls, hs]
      rfl
    · show (Heap.get (Heap.alloc h s).1 other.name).isSome = true
      rw [Heap.get_alloc_of_lt h s other.name hlt, ht]
      rfl
  · refine ⟨(Heap.alloc h t).1, ⟨(Heap.alloc h t).2⟩, ?_, ?_, ?_⟩
    · simp [Apple.assign, ht]
    · show (Heap.get (Heap.alloc h t).1 (Heap.alloc h t).2).isSome = true
      rw [Heap.get_alloc_self h t]
      rfl
    · show (Heap.get (Heap.alloc h t).1 other.name).isSome = true
      rw [Heap.get_alloc_of_lt h t other.name hlt, ht]
      rfl

theorem c7_payload_never_null_witness :
    Apple.valid (Apple.mkDefault ⟨["a", "b"]⟩).1 (Apple.mkDefault ⟨["a", "b"]⟩).2.1 ∧
    (∃ h' b, Apple.copyCtor ⟨["a", "b"]⟩ ⟨0⟩ = some (h', b, ["copy constructor"]) ∧
      Apple.valid h' b ∧ Apple.valid h' ⟨0⟩ ∧ Apple.valid h' ⟨1⟩) ∧
    (∃ h' b, Apple.assign ⟨["a", "b"]⟩ ⟨0⟩ ⟨1⟩ = some (h', b, ["operator="]) ∧
      Apple.valid h' b ∧ Apple.valid h' ⟨1⟩) :=
  c7_payload_never_null ⟨["a", "b"]⟩ ⟨0⟩ ⟨0⟩ ⟨1⟩ (by decide) (by decide)

theorem iterate_r_eq (h : Heap) (a : Apple) (n : Nat) :
    iterate_r h a n = (h, a, List.replicate n "r_func") := by
  induction n with
  | zero => rfl
  | succ m ih => simp [iterate_r, r_func, ih, List.replicate_succ]

theorem iterate_p_eq (h : Heap) (a : Apple) (n : Nat) :
    iterate_p h a n = (h, a, List.replicate n "p_func") := by
  induction n with
  | zero => rfl
  | succ m ih => simp [iterate_p, p_func, ih, List.replicate_succ]

/-- C8: calling `r_func` or `p_func` any number of times `n` with the same
instance leaves the heap and the instance exactly as they were before the
first call — payload content and allocation are untouched — and the `n`
calls log only `r_func` (resp. `p_func`) lines, never `copy constructor`. -/
theorem c8_ref_ptr_idempotent (h : Heap) (a : Apple) (n : Nat) :
    iterate_r h a n = (h, a, List.replicate n "r_func") ∧
    iterate_p h a n = (h, a, List.replicate n "p_func") ∧
    "copy constructor" ∉ (iterate_r h a n).2.2 ∧
    "copy constructor" ∉ (iterate_p h a n).2.2 := by
  have hr := iterate_r_eq h a n
  have hp := iterate_p_eq h a n
  refine ⟨hr, hp, ?_, ?_⟩
  · rw [hr]
    simp [List.mem_replicate]
  · rw [hp]
    simp [List.mem_replicate]

/-- C9: frame property of the by-value call — `func h x` succeeds for a valid
`x`, logging one copy construction then `func`, and leaves the caller's
instance untouched: `x` itself is unchanged (it still names the same
allocation) and the content stored at `x`'s allocation after the call equals
the content before. -/
theorem c9_func_frame (h : Heap) (x : Apple) (s : String)
    (hv : Heap.get h x.name = some s) :
    ∃ h', func h x = some (h', ["copy constructor", "func"]) ∧
      Heap.get h' x.name = some s ∧
      Heap.get h' x.name = Heap.get h x.name := by
  have hx := Heap.lt_of_get h x.name s hv
  refine ⟨(Heap.alloc h s).1, ?_, ?_, ?_⟩
  · simp [func, Apple.copyCtor, hv]
  · rw [Heap.get_alloc_of_lt h s x.name hx]
    exact hv
  · rw [Heap.get_alloc_of_lt h s x.name hx]

theorem c9_func_frame_witness :
    ∃ h', func ⟨["pear"]⟩ ⟨0⟩ = some (h', ["copy constructor", "func"]) ∧
      Heap.get h' (Apple.mk 0).name = some "pear" ∧
      Heap.get h' (Apple.mk 0).name = Heap.get ⟨["pear"]⟩ (Apple.mk 0).name :=
  c9_func_frame ⟨["pear"]⟩ ⟨0⟩ "pear" rfl

/-- C10: the program consumes no input and has no source of nondeterminism:
for any two standard-input streams the run produces the identical finite
sequence of standard-output lines and the identical exit code (0). -/
theorem c10_deterministic (stdin₁ stdin₂ : List String) :
    mainRun stdin₁ = mainRun stdin₂ ∧
    ∃ lines, mainRun stdin₁ = some (lines, 0) :=
  ⟨rfl, ⟨["default constructor", "copy constructor", "copy constructor",
    "test func parameter", "copy constructor", "func", "r_func", "p_func"], rfl⟩⟩

/-- C1 counterexample: the spec's claimed output sequence contains the line
`operator=`, but running the program (no input) never invokes the
copy-assignment operator — `Apple _3 = _2;` is copy-initialisation and calls
the copy constructor — so the program's output is not the claimed
nine-line sequence. -/
theorem c1_claimed_sequence_refuted :
    mainRun [] ≠ some (["default constructor", "copy constructor", "copy constructor",
      "operator=", "test func parameter", "copy constructor", "func", "r_func", "p_func"], 0) := by
  decide

/-- C1 (amended): running the program with no input produces on standard
output exactly the lines `default constructor`, `copy constructor`,
`copy constructor`, `test func parameter`, `copy constructor`, `func`,
`r_func`, `p_func`, in this order, and the process terminates with
exit code 0. -/
theorem c1_main_output :
    mainRun [] = some (["default constructor", "copy constructor", "copy constructor",
      "test func parameter", "copy constructor", "func", "r_func", "p_func"], 0) := by
  decide

end CopyControl
